import Mathlib

/-!
Verification development for `relay-mongodb-connection` (src/index.js).

Strings are modelled as `List Char`; JS numbers that the library actually
handles are integers, modelled as `Int` (offsets, counts, limits) with the
`NaN` produced by `parseInt` modelled as `Option.none`.  Optional arguments
(`undefined` in JS) are `Option.none`; the modelled argument domain for
`first`/`last` is "absent or a number" (the JS `null` literal is outside it,
matching the spec's description of the normal argument domain).
-/

/-- The base64 alphabet, in sextet order. -/
def b64Alphabet : List Char :=
  "ABCDEFGHIJKLMNOPQRSTUVWXYZabcdefghijklmnopqrstuvwxyz0123456789+/".toList

/-- Character of a sextet value (values ≥ 64 never occur). -/
def sxc (s : Nat) : Char := b64Alphabet.getD s 'A'

/-- Sextet value of an alphabet character. -/
def sxv (c : Char) : Nat := b64Alphabet.findIdx (fun a => a == c)

/-- Whether a character belongs to the base64 alphabet (padding `=` does not). -/
def isB64Char (c : Char) : Bool := b64Alphabet.contains c

/-- RFC 4648 base64 of a byte list (Node `Buffer.toString('base64')`),
processing three bytes (four sextets) at a time, with `=` padding. -/
def b64EncodeBytes : List Nat → List Char
  | [] => []
  | [b1] => [sxc (b1 / 4), sxc (b1 % 4 * 16), '=', '=']
  | [b1, b2] => [sxc (b1 / 4), sxc (b1 % 4 * 16 + b2 / 16), sxc (b2 % 16 * 4), '=']
  | b1 :: b2 :: b3 :: rest =>
      sxc (b1 / 4) :: sxc (b1 % 4 * 16 + b2 / 16) :: sxc (b2 % 16 * 4 + b3 / 64) ::
        sxc (b3 % 64) :: b64EncodeBytes rest

/-- Sextet values of a base64 string; characters outside the alphabet
(including padding) are ignored, as Node's lenient decoder does. -/
def sextets (s : List Char) : List Nat := (s.filter isB64Char).map sxv

/-- Bytes of a sextet list, four sextets (three bytes) at a time; a trailing
group of two or three sextets yields one or two bytes, a lone sextet none. -/
def b64DecodeSextets : List Nat → List Nat
  | s1 :: s2 :: s3 :: s4 :: rest =>
      (s1 * 4 + s2 / 16) :: (s2 % 16 * 16 + s3 / 4) :: (s3 % 4 * 64 + s4) ::
        b64DecodeSextets rest
  | [s1, s2] => [s1 * 4 + s2 / 16]
  | [s1, s2, s3] => [s1 * 4 + s2 / 16, s2 % 16 * 16 + s3 / 4]
  | _ => []

/-- `base64` from src/index.js line 3: `Buffer(str, 'ascii').toString('base64')`.
Node's legacy `ascii` encoding keeps the low seven bits of each char code. -/
def base64 (s : List Char) : List Char := b64EncodeBytes (s.map (fun c => c.toNat % 128))

/-- `unbase64` from src/index.js line 4: `Buffer(b64, 'base64').toString('ascii')`. -/
def unbase64 (s : List Char) : List Char :=
  (b64DecodeSextets (sextets s)).map (fun b => Char.ofNat (b % 128))

/-- The fixed cursor tag, `PREFIX` in src/index.js line 1. -/
def prefixChars : List Char := "mongodbconnection:".toList

/-- Decimal digit character of `d % 10`. -/
def digitChar (d : Nat) : Char := Char.ofNat (48 + d % 10)

/-- Whether a character is a decimal digit. -/
def isDigitChar (c : Char) : Bool := 48 ≤ c.toNat && c.toNat ≤ 57

/-- Numeric value of a decimal digit character. -/
def digitVal (c : Char) : Nat := c.toNat - 48

/-- JS whitespace characters skipped by `parseInt` (space, tab, LF, VT, FF, CR). -/
def isJsSpace (c : Char) : Bool :=
  c.toNat = 32 || c.toNat = 9 || c.toNat = 10 || c.toNat = 11 || c.toNat = 12 || c.toNat = 13

/-- Decimal digits of a natural number, most significant first; the first
argument is structural-recursion fuel, always sufficient when `m < fuel`. -/
def natToDigitsFuel : Nat → Nat → List Char
  | 0, _ => []
  | fuel + 1, m =>
      if m < 10 then [digitChar m] else natToDigitsFuel fuel (m / 10) ++ [digitChar (m % 10)]

/-- Decimal digits of a natural number, most significant first. -/
def natToDigits (m : Nat) : List Char := natToDigitsFuel (m + 1) m

/-- JS `String(n)` for an integer `n` (decimal, `-` sign for negatives). -/
def jsNumToString (n : Int) : List Char :=
  if n < 0 then '-' :: natToDigits n.natAbs else natToDigits n.toNat

/-- Longest leading run of decimal digits, as a number; `none` when empty
(this is `parseInt`'s `NaN` outcome). -/
def parseDigits (t : List Char) : Option Nat :=
  let ds := t.takeWhile isDigitChar
  if ds.isEmpty then none else some (ds.foldl (fun a c => a * 10 + digitVal c) 0)

/-- JS `parseInt(s, 10)`: skip leading whitespace, optional sign, then the
longest run of decimal digits; `none` models the `NaN` result. -/
def jsParseInt (s : List Char) : Option Int :=
  match s.dropWhile isJsSpace with
  | [] => none
  | c :: r =>
      if c = '-' then
        match parseDigits r with
        | some m => some (-(m : Int))
        | none => none
      else if c = '+' then
        match parseDigits r with
        | some m => some ((m : Int))
        | none => none
      else
        match parseDigits (c :: r) with
        | some m => some ((m : Int))
        | none => none

/-- `cursorToOffset` (src/index.js lines 9-11): base64-decode, drop the tag
prefix, parse the rest in base 10; `none` is the `NaN` sentinel. -/
def cursorToOffset (cursor : List Char) : Option Int :=
  jsParseInt ((unbase64 cursor).drop prefixChars.length)

/-- `getOffsetWithDefault` (src/index.js lines 18-24): the default when the
cursor is `undefined` or decodes to the `NaN` sentinel, else the decoded offset. -/
def getOffsetWithDefault (cursor : Option (List Char)) (defaultOffset : Int) : Int :=
  match cursor with
  | none => defaultOffset
  | some c =>
      match cursorToOffset c with
      | none => defaultOffset
      | some offset => offset

/-- `offsetToCursor` (src/index.js lines 29-31): `base64(PREFIX + offset)`. -/
def offsetToCursor (offset : Int) : List Char :=
  base64 (prefixChars ++ jsNumToString offset)

/-- Connection arguments `{ after, before, first, last }` (all optional;
`none` is JS `undefined`). -/
structure ConnectionArgs where
  after : Option (List Char) := none
  before : Option (List Char) := none
  first : Option Int := none
  last : Option Int := none
deriving DecidableEq

/-- An edge `{ cursor, node }`. -/
structure Edge (α : Type) where
  cursor : List Char
  node : α
deriving DecidableEq

/-- The `pageInfo` object; `none` cursors are the JS `null` of lines 83-84. -/
structure PageInfo where
  startCursor : Option (List Char)
  endCursor : Option (List Char)
  hasPreviousPage : Bool
  hasNextPage : Bool
deriving DecidableEq

/-- The returned connection `{ edges, pageInfo }`. -/
structure Connection (α : Type) where
  edges : List (Edge α)
  pageInfo : PageInfo
deriving DecidableEq

/-- The local variables of the windowing part of each builder
(lines 42-56 and 77-78), gathered in one record. -/
structure Win where
  afterOffset : Int
  beforeOffset : Int
  startOffset : Int
  endOffset : Int
  skip : Int
  limit : Int
  lowerBound : Int
  upperBound : Int
deriving DecidableEq

/-- A mongodb driver cursor: its result set plus the skip/limit it carries. -/
structure MongoCursor (α : Type) where
  data : List α
  skipConf : Option Int := none
  limitConf : Option Int := none
deriving DecidableEq

/-- A mongoose query object: its result set plus the skip/limit it carries. -/
structure MongooseQuery (α : Type) where
  data : List α
  skipConf : Option Int := none
  limitConf : Option Int := none
deriving DecidableEq

/-- A mongoose aggregation: the result set of its `_pipeline`.
`cloneAggregation` (lines 149-154) rebuilds a fresh aggregate from
`_pipeline`, so the caller's object carries no mutable window state here. -/
structure MongooseAggregate (α : Type) where
  pipelineData : List α
deriving DecidableEq

/-- JS truthiness of an optional string (`after ?`, `before ?` on
lines 77-78): `undefined` and the empty string are falsy. -/
def jsTruthy (c : Option (List Char)) : Bool :=
  match c with
  | none => false
  | some s => !s.isEmpty

/-- The window computation of `connectionFromMongoCursor`
(src/index.js lines 42-56 and 77-78): the `last` step uses
`Math.max(startOffset, endOffset - last)` (line 52).
In the modelled argument domain `first !== undefined` is `Option.isSome`. -/
def resolveWindowMax (count : Int) (after before : Option (List Char))
    (first last : Option Int) : Win :=
  let beforeOffset := getOffsetWithDefault before count
  let afterOffset := getOffsetWithDefault after (-1)
  let startOffset := max (-1) afterOffset + 1
  let endOffset := min count beforeOffset
  let endOffset := match first with
    | some f => min endOffset (startOffset + f)
    | none => endOffset
  let startOffset := match last with
    | some l => max startOffset (endOffset - l)
    | none => startOffset
  let skip := max startOffset 0
  let limit := endOffset - startOffset
  let lowerBound := if jsTruthy after then afterOffset + 1 else 0
  let upperBound := if jsTruthy before then min beforeOffset count else count
  ⟨afterOffset, beforeOffset, startOffset, endOffset, skip, limit, lowerBound, upperBound⟩

/-- The window computation of `connectionFromMongooseQuery` and
`connectionFromMongooseAggregate` (lines 95-110 / 162-177): identical to
`resolveWindowMax` except that the `last` step uses
`Math.min(startOffset, endOffset - last)` (lines 106 and 173). -/
def resolveWindowMin (count : Int) (after before : Option (List Char))
    (first last : Option Int) : Win :=
  let beforeOffset := getOffsetWithDefault before count
  let afterOffset := getOffsetWithDefault after (-1)
  let startOffset := max (-1) afterOffset + 1
  let endOffset := min count beforeOffset
  let endOffset := match first with
    | some f => min endOffset (startOffset + f)
    | none => endOffset
  let startOffset := match last with
    | some l => min startOffset (endOffset - l)
    | none => startOffset
  let skip := max startOffset 0
  let limit := endOffset - startOffset
  let lowerBound := if jsTruthy after then afterOffset + 1 else 0
  let upperBound := if jsTruthy before then min beforeOffset count else count
  ⟨afterOffset, beforeOffset, startOffset, endOffset, skip, limit, lowerBound, upperBound⟩

/-- Result of the terminal fetch (`toArray` / `find` / `exec`) on a source
configured with `skip`/`limit`.  The builders never fetch with `limit = 0`;
MongoDB treats a negative limit as its magnitude (with cursor close), hence
`Int.natAbs`. -/
def applyWindow (data : List α) (skip limit : Int) : List α :=
  (data.drop skip.toNat).take limit.natAbs

/-- The slice a builder obtains:
`limit === 0 ? [] : await fetch()` (lines 63, 116-122, 183-189). -/
def fetchedSlice (data : List α) (w : Win) : List α :=
  if w.limit = 0 then [] else applyWindow data w.skip w.limit

/-- `if (typeof mapper === 'function') slice = slice.map(mapper)`
(lines 66-68, 124-126, 191-193). -/
def applyMapper (mapper : Option (α → α)) (slice : List α) : List α :=
  match mapper with
  | some f => slice.map f
  | none => slice

/-- `slice.map((value, index) => ({ cursor: offsetToCursor(startOffset + index),
node: value }))` (lines 70-73); the index is carried as the accumulated start. -/
def edgesOf (startOffset : Int) : List α → List (Edge α)
  | [] => []
  | v :: rest => { cursor := offsetToCursor startOffset, node := v } :: edgesOf (startOffset + 1) rest

/-- The `pageInfo` assembly (lines 75-76 and 80-88).  In the modelled
argument domain (`first`/`last` absent or numeric, never the JS `null`
literal) the source's `last !== null` and `first !== null` tests are always
true, so both flags are computed from the window unconditionally. -/
def mkPageInfo (w : Win) (edges : List (Edge α)) : PageInfo :=
  { startCursor := edges.head?.map Edge.cursor
    endCursor := edges.getLast?.map Edge.cursor
    hasPreviousPage := decide (w.startOffset > w.lowerBound)
    hasNextPage := decide (w.endOffset < w.upperBound) }

/-- One builder invocation, instrumented for specification: the connection it
returns, the final state of the caller-supplied source object, the window the
builder computed, and whether the terminal fetch was awaited. -/
structure BuildResult (α σ : Type) where
  conn : Connection α
  source : σ
  window : Win
  fetchInvoked : Bool
deriving DecidableEq

/-- `connectionFromMongoCursor` (src/index.js lines 38-89).  Line 39 clones
the caller's cursor and all skip/limit mutation happens on the clone, so the
caller's object comes back unchanged; `count()` ignores configured
skip/limit.  Fetch runs unless `limit === 0` (line 63). -/
def connectionFromMongoCursor (inMongoCursor : MongoCursor α) (args : ConnectionArgs)
    (mapper : Option (α → α)) : BuildResult α (MongoCursor α) :=
  let count : Int := inMongoCursor.data.length
  let w := resolveWindowMax count args.after args.before args.first args.last
  let slice := applyMapper mapper (fetchedSlice inMongoCursor.data w)
  let edges := edgesOf w.startOffset slice
  { conn := { edges := edges, pageInfo := mkPageInfo w edges }
    source := inMongoCursor
    window := w
    fetchInvoked := w.limit ≠ 0 }

/-- `connectionFromMongooseQuery` (src/index.js lines 91-147).  Line 92 only
aliases the caller's query (`const mongooseQuery = query`), so the
`skip`/`limit` applied on lines 112-113 land on the caller's object: the
returned source state carries them. -/
def connectionFromMongooseQuery (query : MongooseQuery α) (args : ConnectionArgs)
    (mapper : Option (α → α)) : BuildResult α (MongooseQuery α) :=
  let count : Int := query.data.length
  let w := resolveWindowMin count args.after args.before args.first args.last
  let slice := applyMapper mapper (fetchedSlice query.data w)
  let edges := edgesOf w.startOffset slice
  { conn := { edges := edges, pageInfo := mkPageInfo w edges }
    source := { query with skipConf := some w.skip, limitConf := some w.limit }
    window := w
    fetchInvoked := w.limit ≠ 0 }

/-- The `$group`-based count of `connectionFromMongooseAggregate`
(lines 160-161): an empty pipeline result yields no group, hence 0; a group
whose count is 0 never occurs, and `countArr[0].count ? ... : 0` otherwise
passes the length through. -/
def aggregateCount (data : List α) : Int :=
  match (if data.isEmpty then ([] : List Nat) else [data.length]).head? with
  | some n => if n = 0 then 0 else (n : Int)
  | none => 0

/-- `connectionFromMongooseAggregate` (src/index.js lines 156-214).
Lines 157-158 rebuild two fresh aggregates from the caller's `_pipeline`
(`cloneAggregation`), one for the count and one for the fetch, so the
caller's object comes back unchanged. -/
def connectionFromMongooseAggregate (aggr : MongooseAggregate α) (args : ConnectionArgs)
    (mapper : Option (α → α)) : BuildResult α (MongooseAggregate α) :=
  let count : Int := aggregateCount aggr.pipelineData
  let w := resolveWindowMin count args.after args.before args.first args.last
  let slice := applyMapper mapper (fetchedSlice aggr.pipelineData w)
  let edges := edgesOf w.startOffset slice
  { conn := { edges := edges, pageInfo := mkPageInfo w edges }
    source := aggr
    window := w
    fetchInvoked := w.limit ≠ 0 }

/-- Modelled from the spec: the window exactly as claim C1 words it, with
`lowerBound`/`upperBound` guarded by *presence* of `after`/`before`
("argument was supplied") rather than the source's JS truthiness test. -/
def c1Window (totalCount : Int) (after before : Option (List Char))
    (first last : Option Int) : Win :=
  let beforeOffset := getOffsetWithDefault before totalCount
  let afterOffset := getOffsetWithDefault after (-1)
  let startOffset := max (-1) afterOffset + 1
  let endOffset := min totalCount beforeOffset
  let endOffset := match first with
    | some f => min endOffset (startOffset + f)
    | none => endOffset
  let startOffset := match last with
    | some l => max startOffset (endOffset - l)
    | none => startOffset
  let skip := max startOffset 0
  let limit := endOffset - startOffset
  let lowerBound := match after with
    | some _ => afterOffset + 1
    | none => 0
  let upperBound := match before with
    | some _ => min beforeOffset totalCount
    | none => totalCount
  ⟨afterOffset, beforeOffset, startOffset, endOffset, skip, limit, lowerBound, upperBound⟩

/-- The leading characters of a candidate number after an optional sign. -/
def afterSign (t : List Char) : List Char :=
  match t with
  | c :: r => if c = '-' || c = '+' then r else t
  | [] => []

/-- Whether a character list starts with anything but a decimal digit. -/
def headNotDigit (x : List Char) : Bool :=
  match x.head? with
  | some c => !isDigitChar c
  | none => true

/-- Whether a decoded payload has no usable leading integer: after the
prefix-length drop, whitespace skip and optional sign, the next character is
missing or not a decimal digit. -/
def payloadLacksInt (s : List Char) : Bool :=
  headNotDigit (afterSign ((s.drop prefixChars.length).dropWhile isJsSpace))

/-- Whether a string is an output of `offsetToCursor`. -/
def producedByEncode (s : List Char) : Prop := ∃ n : Int, offsetToCursor n = s

/-- A string that `offsetToCursor` never produces (its payload carries a
trailing `x`) yet decodes to an integer. -/
def strayCursor : List Char := base64 (prefixChars ++ ['5', 'x'])

/-- `Char.ofNat` and `Char.toNat` cancel below the surrogate range. -/
theorem toNat_ofNat_lt (n : Nat) (h : n < 55296) : (Char.ofNat n).toNat = n := by
  unfold Char.ofNat
  split
  · rfl
  · rename_i hc
    exact absurd (Or.inl h) hc

/-- Decoding a sextet character recovers the sextet. -/
theorem sxv_sxc_fin : ∀ s : Fin 64, sxv (sxc s.val) = s.val ∧ isB64Char (sxc s.val) = true := by
  decide

theorem sxv_sxc (s : Nat) (h : s < 64) : sxv (sxc s) = s := (sxv_sxc_fin ⟨s, h⟩).1

theorem isB64Char_sxc (s : Nat) (h : s < 64) : isB64Char (sxc s) = true := (sxv_sxc_fin ⟨s, h⟩).2

theorem isB64Char_pad : isB64Char '=' = false := by decide

/-- The sextet stream of an encoded byte list, with padding filtered away,
decodes back to the bytes. -/
theorem decode_encode_bytes (l : List Nat) (h : ∀ b ∈ l, b < 256) :
    b64DecodeSextets (sextets (b64EncodeBytes l)) = l := by
  induction l using b64EncodeBytes.induct with
  | case1 => rfl
  | case2 b1 =>
    have hb1 : b1 < 256 := h b1 (by simp)
    have m1 : isB64Char (sxc (b1 / 4)) = true := isB64Char_sxc _ (by omega)
    have m2 : isB64Char (sxc (b1 % 4 * 16)) = true := isB64Char_sxc _ (by omega)
    have v1 : sxv (sxc (b1 / 4)) = b1 / 4 := sxv_sxc _ (by omega)
    have v2 : sxv (sxc (b1 % 4 * 16)) = b1 % 4 * 16 := sxv_sxc _ (by omega)
    simp only [b64EncodeBytes, sextets, List.filter_cons, List.filter_nil, m1, m2,
      isB64Char_pad, if_true, if_false, Bool.false_eq_true, List.map_cons, List.map_nil,
      v1, v2, b64DecodeSextets, List.cons.injEq, and_true]
    omega
  | case3 b1 b2 =>
    have hb1 : b1 < 256 := h b1 (by simp)
    have hb2 : b2 < 256 := h b2 (by simp)
    have m1 : isB64Char (sxc (b1 / 4)) = true := isB64Char_sxc _ (by omega)
    have m2 : isB64Char (sxc (b1 % 4 * 16 + b2 / 16)) = true := isB64Char_sxc _ (by omega)
    have m3 : isB64Char (sxc (b2 % 16 * 4)) = true := isB64Char_sxc _ (by omega)
    have v1 : sxv (sxc (b1 / 4)) = b1 / 4 := sxv_sxc _ (by omega)
    have v2 : sxv (sxc (b1 % 4 * 16 + b2 / 16)) = b1 % 4 * 16 + b2 / 16 := sxv_sxc _ (by omega)
    have v3 : sxv (sxc (b2 % 16 * 4)) = b2 % 16 * 4 := sxv_sxc _ (by omega)
    simp only [b64EncodeBytes, sextets, List.filter_cons, List.filter_nil, m1, m2, m3,
      isB64Char_pad, if_true, if_false, Bool.false_eq_true, List.map_cons, List.map_nil,
      v1, v2, v3, b64DecodeSextets, List.cons.injEq, and_true]
    omega
  | case4 b1 b2 b3 rest ih =>
    have hb1 : b1 < 256 := h b1 (by simp)
    have hb2 : b2 < 256 := h b2 (by simp)
    have hb3 : b3 < 256 := h b3 (by simp)
    have hrest : ∀ b ∈ rest, b < 256 := fun b hb => h b (by simp [hb])
    have m1 : isB64Char (sxc (b1 / 4)) = true := isB64Char_sxc _ (by omega)
    have m2 : isB64Char (sxc (b1 % 4 * 16 + b2 / 16)) = true := isB64Char_sxc _ (by omega)
    have m3 : isB64Char (sxc (b2 % 16 * 4 + b3 / 64)) = true := isB64Char_sxc _ (by omega)
    have m4 : isB64Char (sxc (b3 % 64)) = true := isB64Char_sxc _ (by omega)
    have v1 : sxv (sxc (b1 / 4)) = b1 / 4 := sxv_sxc _ (by omega)
    have v2 : sxv (sxc (b1 % 4 * 16 + b2 / 16)) = b1 % 4 * 16 + b2 / 16 := sxv_sxc _ (by omega)
    have v3 : sxv (sxc (b2 % 16 * 4 + b3 / 64)) = b2 % 16 * 4 + b3 / 64 := sxv_sxc _ (by omega)
    have v4 : sxv (sxc (b3 % 64)) = b3 % 64 := sxv_sxc _ (by omega)
    have ihx := ih hrest
    simp only [sextets] at ihx
    simp only [b64EncodeBytes, sextets, List.filter_cons, m1, m2, m3, m4,
      if_true, List.map_cons, v1, v2, v3, v4, b64DecodeSextets, List.cons.injEq]
    exact ⟨by omega, by omega, by omega, ihx⟩

/-- `unbase64` undoes `base64` on seven-bit strings. -/
theorem unbase64_base64 (s : List Char) (h : ∀ c ∈ s, c.toNat < 128) :
    unbase64 (base64 s) = s := by
  unfold unbase64 base64
  rw [decode_encode_bytes]
  · rw [List.map_map]
    apply List.map_congr_left ?_ |>.trans (List.map_id s)
    intro c hc
    have hcn : c.toNat < 128 := h c hc
    simp only [Function.comp, id]
    rw [Nat.mod_eq_of_lt hcn, Nat.mod_eq_of_lt hcn]
    exact Char.ofNat_toNat c
  · intro b hb
    simp only [List.mem_map] at hb
    obtain ⟨c, _, rfl⟩ := hb
    omega

/-- A digit character's code point. -/
theorem digitChar_toNat (d : Nat) : (digitChar d).toNat = 48 + d % 10 := by
  have : d % 10 < 10 := Nat.mod_lt _ (by omega)
  exact toNat_ofNat_lt _ (by omega)

theorem isDigitChar_digitChar (d : Nat) : isDigitChar (digitChar d) = true := by
  have : d % 10 < 10 := Nat.mod_lt _ (by omega)
  simp [isDigitChar, digitChar_toNat]
  omega

theorem digitVal_digitChar (d : Nat) : digitVal (digitChar d) = d % 10 := by
  simp [digitVal, digitChar_toNat]

/-- Every character of a decimal representation is a digit. -/
theorem natToDigitsFuel_digits :
    ∀ fuel m, m < fuel → ∀ c ∈ natToDigitsFuel fuel m, isDigitChar c = true := by
  intro fuel
  induction fuel with
  | zero => omega
  | succ fuel ih =>
    intro m hm c hc
    rw [natToDigitsFuel] at hc
    split at hc
    · simp only [List.mem_singleton] at hc
      subst hc
      exact isDigitChar_digitChar _
    · rcases List.mem_append.mp hc with h1 | h2
      · exact ih (m / 10) (by omega) c h1
      · simp only [List.mem_singleton] at h2
        subst h2
        exact isDigitChar_digitChar _

theorem natToDigits_digits (m : Nat) : ∀ c ∈ natToDigits m, isDigitChar c = true :=
  natToDigitsFuel_digits (m + 1) m (by omega)

theorem natToDigitsFuel_ne_nil : ∀ fuel m, m < fuel → natToDigitsFuel fuel m ≠ [] := by
  intro fuel
  induction fuel with
  | zero => omega
  | succ fuel _ =>
    intro m _
    rw [natToDigitsFuel]
    split
    · simp
    · simp

theorem natToDigits_ne_nil (m : Nat) : natToDigits m ≠ [] :=
  natToDigitsFuel_ne_nil (m + 1) m (by omega)

/-- Folding the digit accumulator over a decimal representation recovers the
number. -/
theorem natToDigitsFuel_foldl :
    ∀ fuel m, m < fuel →
      (natToDigitsFuel fuel m).foldl (fun a c => a * 10 + digitVal c) 0 = m := by
  intro fuel
  induction fuel with
  | zero => omega
  | succ fuel ih =>
    intro m hm
    rw [natToDigitsFuel]
    split
    · rename_i h10
      simp [digitVal_digitChar, Nat.mod_eq_of_lt h10]
    · rename_i h10
      rw [List.foldl_append, ih (m / 10) (by omega)]
      simp only [List.foldl_cons, List.foldl_nil, digitVal_digitChar]
      omega

theorem natToDigits_foldl (m : Nat) :
    (natToDigits m).foldl (fun a c => a * 10 + digitVal c) 0 = m :=
  natToDigitsFuel_foldl (m + 1) m (by omega)

/-- `parseDigits` undoes `natToDigits`. -/
theorem parseDigits_natToDigits (m : Nat) : parseDigits (natToDigits m) = some m := by
  unfold parseDigits
  rw [List.takeWhile_eq_self_iff.mpr (natToDigits_digits m)]
  rw [if_neg (by simpa using natToDigits_ne_nil m)]
  rw [natToDigits_foldl]

/-- Digits are not JS whitespace. -/
theorem digit_not_space (c : Char) (h : isDigitChar c = true) : isJsSpace c = false := by
  simp only [isDigitChar, Bool.and_eq_true, decide_eq_true_eq] at h
  simp only [isJsSpace, Bool.or_eq_false_iff, decide_eq_false_iff_not]
  omega

/-- Digits are not sign characters. -/
theorem digit_not_minus (c : Char) (h : isDigitChar c = true) : c ≠ '-' := by
  intro he
  subst he
  simp [isDigitChar] at h

theorem digit_not_plus (c : Char) (h : isDigitChar c = true) : c ≠ '+' := by
  intro he
  subst he
  simp [isDigitChar] at h

/-- `parseInt` undoes `String(n)` for every integer, negative ones included. -/
theorem jsParseInt_jsNumToString (n : Int) : jsParseInt (jsNumToString n) = some n := by
  by_cases hn : n < 0
  · rw [jsNumToString, if_pos hn]
    have hds : List.dropWhile isJsSpace ('-' :: natToDigits n.natAbs) =
        '-' :: natToDigits n.natAbs := by
      rw [List.dropWhile_cons, if_neg (by decide)]
    simp only [jsParseInt, hds, parseDigits_natToDigits, if_true]
    congr 1
    omega
  · rw [jsNumToString, if_neg hn]
    obtain ⟨c, rest, he⟩ : ∃ c rest, natToDigits n.toNat = c :: rest := by
      rcases hd : natToDigits n.toNat with _ | ⟨c, rest⟩
      · exact absurd hd (natToDigits_ne_nil _)
      · exact ⟨c, rest, rfl⟩
    have hdig : isDigitChar c = true := natToDigits_digits n.toNat c (by rw [he]; simp)
    have h1 : c ≠ '-' := digit_not_minus c hdig
    have h2 : c ≠ '+' := digit_not_plus c hdig
    have hds : List.dropWhile isJsSpace (c :: rest) = c :: rest := by
      rw [List.dropWhile_cons, digit_not_space c hdig]
      simp
    have hpd : parseDigits (c :: rest) = some n.toNat := by
      rw [← he]
      exact parseDigits_natToDigits n.toNat
    rw [he]
    simp only [jsParseInt, hds, h1, h2, hpd, if_false, if_true]
    congr 1
    omega

/-- Every character of the cursor tag is seven-bit. -/
theorem prefixChars_ascii : ∀ c ∈ prefixChars, c.toNat < 128 := by decide

/-- Characters of a decimal representation are seven-bit. -/
theorem jsNumToString_ascii (n : Int) : ∀ c ∈ jsNumToString n, c.toNat < 128 := by
  intro c hc
  unfold jsNumToString at hc
  split at hc
  · rcases List.mem_cons.mp hc with h1 | h2
    · subst h1
      decide
    · have := natToDigits_digits n.natAbs c h2
      simp only [isDigitChar, Bool.and_eq_true, decide_eq_true_eq] at this
      omega
  · have := natToDigits_digits n.toNat c hc
    simp only [isDigitChar, Bool.and_eq_true, decide_eq_true_eq] at this
    omega

/-- The codec round-trip: decoding an encoded offset recovers it exactly,
for every integer offset. -/
theorem cursor_roundtrip (n : Int) : cursorToOffset (offsetToCursor n) = some n := by
  unfold cursorToOffset offsetToCursor
  rw [unbase64_base64]
  · rw [List.drop_left, jsParseInt_jsNumToString]
  · intro c hc
    rcases List.mem_append.mp hc with h1 | h2
    · exact prefixChars_ascii c h1
    · exact jsNumToString_ascii n c h2

/-- The empty-string cursor decodes to the sentinel, so the default survives. -/
theorem getOffset_empty (d : Int) : getOffsetWithDefault (some []) d = d := rfl

/-- The source's truthiness-guarded `lowerBound`/`upperBound` agree with the
presence-guarded forms of the claimed algorithm: the only divergent case is
the empty-string cursor, which decodes to the sentinel and lands on the same
value from both sides. -/
theorem resolveWindowMax_eq_c1 (count : Int) (after before : Option (List Char))
    (first last : Option Int) :
    resolveWindowMax count after before first last =
      c1Window count after before first last := by
  have hemp : ∀ d : Int, getOffsetWithDefault (some []) d = d := getOffset_empty
  rcases after with _ | ⟨_ | ⟨a, as⟩⟩ <;> rcases before with _ | ⟨_ | ⟨b, bs⟩⟩ <;>
    simp [resolveWindowMax, c1Window, jsTruthy, hemp, Win.mk.injEq]

/-- With no `first` argument the computed `endOffset` coincides with
`upperBound`, whichever way `before` is supplied. -/
theorem endOffset_eq_upperBound (count : Int) (after before : Option (List Char))
    (last : Option Int) :
    (resolveWindowMax count after before none last).endOffset =
      (resolveWindowMax count after before none last).upperBound := by
  have h0 : cursorToOffset [] = none := rfl
  rcases before with _ | ⟨_ | ⟨b, bs⟩⟩ <;>
    simp [resolveWindowMax, jsTruthy, getOffsetWithDefault, h0] <;>
    omega

/-- Indexing into the edge list pairs each slice element with the cursor of
its absolute offset. -/
theorem edgesOf_getElem (s : Int) (l : List α) (i : Nat) :
    (edgesOf s l)[i]? =
      (l[i]?).map (fun v => { cursor := offsetToCursor (s + (i : Int)), node := v }) := by
  induction l generalizing s i with
  | nil => simp [edgesOf]
  | cons v rest ih =>
    rcases i with _ | i
    · simp [edgesOf]
    · have hof : s + 1 + (i : Int) = s + ((i + 1 : Nat) : Int) := by push_cast; ring
      simp [edgesOf, ih (s + 1) i, hof]

/-- The nodes of the edge list are exactly the slice, in order. -/
theorem edgesOf_nodes (s : Int) (l : List α) : (edgesOf s l).map Edge.node = l := by
  induction l generalizing s with
  | nil => rfl
  | cons v rest ih => simp [edgesOf, ih]

/-- `parseDigits` fails exactly when the first character is not a digit. -/
theorem parseDigits_none_iff (x : List Char) :
    (parseDigits x = none) ↔ headNotDigit x = true := by
  rcases x with _ | ⟨c, r⟩
  · simp [parseDigits, headNotDigit]
  · simp only [parseDigits, headNotDigit, List.takeWhile_cons, List.head?_cons]
    by_cases hdc : isDigitChar c = true
    · simp [hdc]
    · simp [hdc]

/-- `parseInt` yields `NaN` exactly when, after whitespace and an optional
sign, no decimal digit follows. -/
theorem jsParseInt_none_iff (u : List Char) :
    (jsParseInt u = none) ↔ headNotDigit (afterSign (u.dropWhile isJsSpace)) = true := by
  rcases hd : u.dropWhile isJsSpace with _ | ⟨c, r⟩
  · simp [jsParseInt, hd, afterSign, headNotDigit]
  · by_cases h1 : c = '-'
    · subst h1
      rcases hp : parseDigits r with _ | m
      · simp [jsParseInt, hd, afterSign, hp, (parseDigits_none_iff r).mp hp]
      · have h3 : headNotDigit r ≠ true := fun hh => by
          simp [(parseDigits_none_iff r).mpr hh] at hp
        simp [jsParseInt, hd, afterSign, hp, h3]
    · by_cases h2 : c = '+'
      · subst h2
        rcases hp : parseDigits r with _ | m
        · simp [jsParseInt, hd, afterSign, hp, (parseDigits_none_iff r).mp hp]
        · have h3 : headNotDigit r ≠ true := fun hh => by
            simp [(parseDigits_none_iff r).mpr hh] at hp
          simp [jsParseInt, hd, afterSign, hp, h3]
      · rcases hp : parseDigits (c :: r) with _ | m
        · simp [jsParseInt, hd, afterSign, h1, h2, hp, (parseDigits_none_iff (c :: r)).mp hp]
        · have h3 : headNotDigit (c :: r) ≠ true := fun hh => by
            simp [(parseDigits_none_iff (c :: r)).mpr hh] at hp
          simp [jsParseInt, hd, afterSign, h1, h2, hp, h3]

/-- C1: for every input (totalCount, after, before, first, last),
`connectionFromMongoCursor` computes the window exactly as the Resolver
specifies: `beforeOffset`/`afterOffset` from `getOffsetWithDefault`,
`startOffset = max(-1, afterOffset) + 1`, `endOffset = min(totalCount,
beforeOffset)`, the `first` and `last` (max-form) narrowing steps,
`skip = max(startOffset, 0)`, and presence-guarded `lowerBound`/`upperBound`. -/
theorem c1_window_as_specified {α : Type} (src : MongoCursor α) (args : ConnectionArgs)
    (mapper : Option (α → α)) (count : Int) (after before : Option (List Char))
    (first last : Option Int) :
    resolveWindowMax count after before first last =
        c1Window count after before first last ∧
    (connectionFromMongoCursor src args mapper).window =
        c1Window (src.data.length : Int) args.after args.before args.first args.last :=
  ⟨resolveWindowMax_eq_c1 count after before first last,
   resolveWindowMax_eq_c1 (src.data.length : Int) args.after args.before args.first args.last⟩

/-- C2 (evaluation at the failing input): on a 10-record source with
`{ last: 3 }`, the cursor binding (max form) keeps 3 edges with
`startOffset = 7`, while the mongoose query and aggregate bindings (min form)
compute `startOffset = min(0, 7) = 0` and return all 10 records — the three
bindings do not agree. -/
theorem c2_last_divergence_eval :
    (connectionFromMongoCursor ⟨List.range 10, none, none⟩ ⟨none, none, none, some 3⟩
        (none : Option (Nat → Nat))).conn.edges.length = 3 ∧
    (connectionFromMongooseQuery ⟨List.range 10, none, none⟩ ⟨none, none, none, some 3⟩
        (none : Option (Nat → Nat))).conn.edges.length = 10 ∧
    (connectionFromMongooseAggregate ⟨List.range 10⟩ ⟨none, none, none, some 3⟩
        (none : Option (Nat → Nat))).conn.edges.length = 10 ∧
    (resolveWindowMax 10 none none none (some 3)).startOffset = 7 ∧
    (resolveWindowMin 10 none none none (some 3)).startOffset = 0 := by
  decide

/-- C3 (evaluation at the failing input): with `after = encode(5)` and
`before = encode(3)` on a 10-record source the window is inverted; the code
computes `limit = 3 - 6 = -3` without clamping, still invokes the fetch
(`limit !== 0`), and — under MongoDB's negative-limit-as-magnitude
semantics — returns three edges instead of zero. -/
theorem c3_negative_limit_eval :
    (connectionFromMongoCursor ⟨List.range 10, none, none⟩
        ⟨some (offsetToCursor 5), some (offsetToCursor 3), none, none⟩
        (none : Option (Nat → Nat))).window.limit = -3 ∧
    (connectionFromMongoCursor ⟨List.range 10, none, none⟩
        ⟨some (offsetToCursor 5), some (offsetToCursor 3), none, none⟩
        (none : Option (Nat → Nat))).fetchInvoked = true ∧
    (connectionFromMongoCursor ⟨List.range 10, none, none⟩
        ⟨some (offsetToCursor 5), some (offsetToCursor 3), none, none⟩
        (none : Option (Nat → Nat))).conn.edges.length = 3 := by
  decide

/-- C4 (counterexample): with `last` absent and an `after` cursor encoding
the negative offset -5, the code still evaluates `startOffset > lowerBound`
(its `last !== null` test passes for an absent argument) and reports
`hasPreviousPage = true`, where the claim requires `false`. -/
theorem c4_counterexample :
    (connectionFromMongoCursor ⟨List.range 10, none, none⟩
        ⟨some (offsetToCursor (-5)), none, none, none⟩
        (none : Option (Nat → Nat))).conn.pageInfo.hasPreviousPage = true := by
  decide

/-- C4 (amended): `hasPreviousPage` always equals `startOffset > lowerBound`
and `hasNextPage` always equals `endOffset < upperBound`, whether or not
`last`/`first` were supplied; when `first` is absent `hasNextPage` still
always comes out false because `endOffset` then coincides with `upperBound`. -/
theorem c4_flags {α : Type} (src : MongoCursor α) (args : ConnectionArgs)
    (mapper : Option (α → α)) :
    (connectionFromMongoCursor src args mapper).conn.pageInfo.hasPreviousPage =
      decide ((connectionFromMongoCursor src args mapper).window.startOffset >
        (connectionFromMongoCursor src args mapper).window.lowerBound) ∧
    (connectionFromMongoCursor src args mapper).conn.pageInfo.hasNextPage =
      decide ((connectionFromMongoCursor src args mapper).window.endOffset <
        (connectionFromMongoCursor src args mapper).window.upperBound) ∧
    (args.first = none →
      (connectionFromMongoCursor src args mapper).conn.pageInfo.hasNextPage = false) := by
  refine ⟨rfl, rfl, fun h => ?_⟩
  simp only [connectionFromMongoCursor, mkPageInfo, h]
  rw [endOffset_eq_upperBound]
  simp

theorem c4_flags_witness :
    (connectionFromMongoCursor ⟨[0, 1, 2], none, none⟩ ⟨none, none, none, none⟩
      (none : Option (Nat → Nat))).conn.pageInfo.hasNextPage = false :=
  (c4_flags ⟨[0, 1, 2], none, none⟩ ⟨none, none, none, none⟩ none).2.2 rfl

/-- C5: for every non-negative integer `n`,
`cursorToOffset (offsetToCursor n) = n`. -/
theorem c5_roundtrip_nonneg (n : Nat) :
    cursorToOffset (offsetToCursor (n : Int)) = some ((n : Nat) : Int) :=
  cursor_roundtrip (n : Int)

/-- C6 (counterexample): `connectionFromMongooseQuery` hands back the
caller's query with `skip`/`limit` written into it — the caller's original
object does not keep its configuration. -/
theorem c6_counterexample :
    (connectionFromMongooseQuery ⟨[0, 1, 2], none, none⟩ ⟨none, none, none, none⟩
      (none : Option (Nat → Nat))).source ≠ ⟨[0, 1, 2], none, none⟩ := by
  decide

/-- C6 (amended): `connectionFromMongoCursor` (which clones, line 39) and
`connectionFromMongooseAggregate` (which rebuilds from `_pipeline`,
lines 157-158) leave the caller's source unmodified, but
`connectionFromMongooseQuery` merely aliases the caller's query (line 92)
and applies `skip`/`limit` directly to it (lines 112-113), mutating its
configuration. -/
theorem c6_source_mutation {α : Type} (src : MongoCursor α) (q : MongooseQuery α)
    (aggr : MongooseAggregate α) (args : ConnectionArgs) (mapper : Option (α → α)) :
    (connectionFromMongoCursor src args mapper).source = src ∧
    (connectionFromMongooseAggregate aggr args mapper).source = aggr ∧
    (connectionFromMongooseQuery q args mapper).source =
      { q with
        skipConf := some (resolveWindowMin (q.data.length : Int) args.after args.before
          args.first args.last).skip
        limitConf := some (resolveWindowMin (q.data.length : Int) args.after args.before
          args.first args.last).limit } :=
  ⟨rfl, rfl, rfl⟩

/-- C7: `getOffsetWithDefault` returns the default when the cursor is absent,
returns it again when decoding yields the `NaN` sentinel, and otherwise
returns the decoded integer. -/
theorem c7_getOffsetWithDefault (c : List Char) (d k : Int) :
    getOffsetWithDefault none d = d ∧
    (cursorToOffset c = none → getOffsetWithDefault (some c) d = d) ∧
    (cursorToOffset c = some k → getOffsetWithDefault (some c) d = k) := by
  refine ⟨rfl, fun h => ?_, fun h => ?_⟩ <;> simp [getOffsetWithDefault, h]

theorem c7_witness :
    getOffsetWithDefault (some (offsetToCursor 7)) 3 = 7 ∧
    getOffsetWithDefault (some []) 3 = 3 :=
  ⟨(c7_getOffsetWithDefault (offsetToCursor 7) 3 7).2.2 (by decide),
   (c7_getOffsetWithDefault [] 3 7).2.1 (by decide)⟩

/-- C8: a supplied mapper is applied to every record exactly once, in fetch
order, before edge assembly (the edge nodes are exactly the mapped slice),
and the edge at index `i` is
`{ cursor: offsetToCursor (startOffset + i), node: (mapped) record i }`. -/
theorem c8_edge_assembly {α : Type} (src : MongoCursor α) (args : ConnectionArgs)
    (mapper : Option (α → α)) (i : Nat) (v : α)
    (h : (fetchedSlice src.data (connectionFromMongoCursor src args mapper).window)[i]? =
      some v) :
    (connectionFromMongoCursor src args mapper).conn.edges.map Edge.node =
      applyMapper mapper
        (fetchedSlice src.data (connectionFromMongoCursor src args mapper).window) ∧
    (connectionFromMongoCursor src args mapper).conn.edges[i]? =
      some { cursor := offsetToCursor
               ((connectionFromMongoCursor src args mapper).window.startOffset + (i : Int))
             node := match mapper with | some f => f v | none => v } := by
  constructor
  · exact edgesOf_nodes _ _
  · rw [show (connectionFromMongoCursor src args mapper).conn.edges =
        edgesOf (connectionFromMongoCursor src args mapper).window.startOffset
          (applyMapper mapper (fetchedSlice src.data
            (connectionFromMongoCursor src args mapper).window)) from rfl]
    rw [edgesOf_getElem]
    rcases mapper with _ | f
    · simp [applyMapper, h]
    · simp [applyMapper, List.getElem?_map, h]

theorem c8_witness :
    (connectionFromMongoCursor ⟨[10, 20, 30], none, none⟩ ⟨none, none, none, none⟩
      (some (fun x => x + 1))).conn.edges[1]? =
      some { cursor := offsetToCursor 1, node := 21 } :=
  (c8_edge_assembly ⟨[10, 20, 30], none, none⟩ ⟨none, none, none, none⟩
    (some (fun x => x + 1)) 1 20 (by decide)).2

/-- C9 (counterexample): the string `base64("mongodbconnection:5x")` is not
produced by `offsetToCursor` for any integer, yet it decodes to 5 rather
than the `NaN` sentinel. -/
theorem c9_counterexample :
    cursorToOffset strayCursor = some 5 ∧ ¬producedByEncode strayCursor := by
  refine ⟨by decide, ?_⟩
  rintro ⟨n, hn⟩
  have h1 : cursorToOffset strayCursor = some n := by
    rw [← hn]
    exact cursor_roundtrip n
  have h2 : n = 5 := by
    have h3 : cursorToOffset strayCursor = some 5 := by decide
    rw [h1] at h3
    exact Option.some.inj h3
  subst h2
  exact absurd hn (by decide)

/-- C9 (amended): for every input string, `cursorToOffset` is a total
function into integer-or-sentinel (never a thrown failure), and it yields
the sentinel exactly when the base64-decoded payload — after the
prefix-length drop, whitespace skip and optional sign — does not start with
a decimal digit; conformance to `offsetToCursor`'s output format is not
required for an integer result. -/
theorem c9_sentinel_iff (s : List Char) :
    cursorToOffset s = none ↔ payloadLacksInt (unbase64 s) = true := by
  simp only [cursorToOffset, payloadLacksInt]
  exact jsParseInt_none_iff _

/-- C10: the codec round-trip holds for every integer, negative ones
included, and `getOffsetWithDefault` therefore accepts a cursor encoding a
negative offset as a real offset instead of neutralizing it to the default. -/
theorem c10_roundtrip_all_ints (n d : Int) :
    cursorToOffset (offsetToCursor n) = some n ∧
    getOffsetWithDefault (some (offsetToCursor n)) d = n := by
  refine ⟨cursor_roundtrip n, ?_⟩
  simp [getOffsetWithDefault, cursor_roundtrip n]
